import Mathlib

/-
Verification of the Ruby <-> wasmtime function-call bridge
(`src/ext/src/ruby_api/func.rs` of matsadler/wasmtime-rb).

The embedding models the code of `func.rs` directly.  Collaborators that
live in files not provided (`params.rs`, `convert.rs`, `store.rs`) are
modelled from the specification, and each such definition's doc comment
says so and names the missing piece.
-/

set_option autoImplicit false

namespace WasmtimeRb

/-- VM value types (the `wasmtime::ValType` vocabulary used by this bridge:
fixed-width integers and 32/64-bit floats; float payloads are carried as
opaque bit patterns, no floating-point arithmetic is modelled). -/
inductive ValType where
  | i32
  | i64
  | f32
  | f64
deriving DecidableEq, Repr

/-- VM values (`wasmtime::Val`).  `nullRef` models `Val::null()`, the value
used to pre-fill the results array before the engine call. -/
inductive Val where
  | i32 (n : Int)
  | i64 (n : Int)
  | f32 (bits : Nat)
  | f64 (bits : Nat)
  | nullRef
deriving DecidableEq, Repr

/-- A Ruby exception object (`magnus::Exception`).  `objectId` models Ruby
object identity, so that identity preservation of a propagated exception is
observable in the model. -/
structure RbException where
  className : String
  message : String
  objectId : Nat
deriving DecidableEq, Repr

/-- A Ruby-level failure (`magnus::Error`): either a genuine raised exception
object (`Error::Exception`) or an error class plus message (`Error::Error`,
as produced by the `error!` macro). -/
inductive RbError where
  | exception (e : RbException)
  | error (msg : String)
deriving DecidableEq, Repr

/-- The text a `magnus::Error` displays: the message. -/
def RbError.text : RbError → String
  | .exception e => e.message
  | .error m => m

/-- Kinds of module exports (`wasmtime::ExternType`). -/
inductive ExternType where
  | func
  | memory
  | table
  | global
deriving DecidableEq, Repr

/-- Ruby values as seen by the bridge.  `caller` is a `Wasmtime::Caller`
object wrapping the in-flight engine frame: it carries the store's user data
and the calling instance's exports, which is what `Caller#store_data` and
`Caller#export` read. -/
inductive RValue where
  | nil
  | int (n : Int)
  | float (bits : Nat)
  | str (s : String)
  | array (xs : List RValue)
  | caller (userData : RValue) (exports : List (String × ExternType))
  | obj (id : Nat)

/-- The store's data (`StoreData` from `store.rs`, not among the provided
sources).  Modelled from the spec: it owns the per-store user data and the
Held Exception Slot, a single-slot register holding at most one pending
host exception. -/
structure StoreData where
  userData : RValue
  exceptionSlot : Option RbException

/-- Modelled from the spec: `exception().hold(e)` on `StoreData`
(`store.rs`, not among the provided sources) sets the Held Exception Slot. -/
def StoreData.hold (st : StoreData) (e : RbException) : StoreData :=
  { st with exceptionSlot := some e }

/-- The engine's view of the calling frame handed to an imported function
(`wasmtime::Caller`): access to the store data and to the calling
instance's exports. -/
structure CallerImpl where
  data : StoreData
  exports : List (String × ExternType)

/-- Modelled from the spec (the Value Converter in `convert.rs`, not among
the provided sources): `to_host` maps each VM value to its Ruby
representation and is total over the modelled vocabulary. -/
def Val.to_ruby : Val → RValue
  | .i32 n => .int n
  | .i64 n => .int n
  | .f32 b => .float b
  | .f64 b => .float b
  | .nullRef => .nil

/-- The fallible signature of `ToRubyValue::to_ruby_value` from
`convert.rs`; per the spec the conversion is total over the modelled
vocabulary, so it always succeeds. -/
def Val.to_ruby_value (v : Val) : Except RbError RValue :=
  .ok v.to_ruby

/-- Modelled from the spec (the Value Converter in `convert.rs`, not among
the provided sources): `to_vm` converts a Ruby value against an expected VM
type; exact for in-range values, a `ConversionError` for out-of-range or
wrong-kind values, never silently truncating. -/
def RValue.to_wasm_val : RValue → ValType → Except RbError Val
  | .int n, .i32 =>
      if -(2 ^ 31) ≤ n ∧ n < 2 ^ 31 then .ok (.i32 n)
      else .error (.error ("integer out of range for i32"))
  | .int n, .i64 =>
      if -(2 ^ 63) ≤ n ∧ n < 2 ^ 63 then .ok (.i64 n)
      else .error (.error ("integer out of range for i64"))
  | .float b, .f32 => .ok (.f32 b)
  | .float b, .f64 => .ok (.f64 b)
  | _, _ => .error (.error ("cannot convert value to requested type"))

/-- A function signature (`wasmtime::FuncType`): ordered parameter and
result type lists. -/
structure FuncType where
  params : List ValType
  results : List ValType
deriving DecidableEq, Repr

/-- A Ruby `Proc`: its behaviour when called with an argument array, and
its `inspect` string (used in trampoline trap messages). -/
structure RProc where
  call : List RValue → Except RbError RValue
  inspect : String

/-- An engine trap (`wasmtime::Trap::new(message)`). -/
structure Trap where
  message : String
deriving DecidableEq, Repr

/-- `wasmtime::Trap::new`. -/
def Trap.new (m : String) : Trap := ⟨m⟩

/-- Models the fallibility of `magnus::RArray::push` (a Ruby-level raise,
e.g. out of memory).  The trampoline in `func.rs` discards push results
with `.ok()`; the oracle says whether the k-th push onto the `rparams`
array raises, making that discarding observable.  When a push raises, the
element is not appended. -/
structure PushOracle where
  fails : Nat → Bool

/-- The oracle under which no push raises (the ordinary case). -/
def noFail : PushOracle := ⟨fun _ => false⟩

/-- Trap text for a parameter that failed conversion:
`"invalid argument at index {i}: {e}"` from `make_func_callable`. -/
def invalidArgText (i : Nat) (m : String) : String :=
  "invalid argument at index " ++ toString i ++ ": " ++ m

/-- Trap text wrapping a failure of the Ruby proc call or of result
marshalling: `"Error when calling Func {proc.inspect}\n Error: {e}"` from
`make_func_callable`. -/
def procCallErrorText (procInspect : String) (m : String) : String :=
  "Error when calling Func " ++ procInspect ++ "\n Error: " ++ m

/-- The result-arity error text
`"wrong number of results (given {given}, expected {expected})"` from
`make_func_callable`. -/
def resultsArityText (given expected : Nat) : String :=
  "wrong number of results (given " ++ toString given ++ ", expected " ++
    toString expected ++ ")"

/-- The parameter loop of `make_func_callable`: each VM value is converted
with `to_ruby_value` (a failure traps with `invalid argument at index i`)
and pushed onto the accumulating Ruby array; the push's own result is
discarded with `.ok()`, so a raising push silently skips the element.
`k` counts pushes attempted so far (for the oracle), `i` is the parameter
index used in the error message. -/
def convertParams (o : PushOracle) : Nat → Nat → List RValue → List Val →
    Except Trap (List RValue)
  | _, _, acc, [] => .ok acc
  | k, i, acc, v :: rest =>
    match v.to_ruby_value with
    | .error e => .error (Trap.new (invalidArgText i e.text))
    | .ok r =>
        convertParams o (k + 1) (i + 1) (if o.fails k then acc else acc ++ [r]) rest

/-- Assembly of the Ruby argument array `rparams` in `make_func_callable`:
when `send_caller` is set, a `Wasmtime::Caller` value is pushed first (its
push result also discarded with `.ok()`), then each converted parameter. -/
def assembleArgs (o : PushOracle) (send_caller : Bool) (c : CallerImpl)
    (params : List Val) : Except Trap (List RValue) :=
  if send_caller then
    convertParams o 1 0
      (if o.fails 0 then [] else [RValue.caller c.data.userData c.exports]) params
  else
    convertParams o 0 0 [] params

/-- `magnus::RArray::try_convert` as used on the proc's return value
(`rb_Array` semantics, per the comment in `make_func_callable`: for one
declared result both `val` and `[val]` are accepted): an array yields its
elements, `nil` yields the empty array, anything else a singleton. -/
def rbToArray : RValue → List RValue
  | .array xs => xs
  | .nil => []
  | v => [v]

/-- The result-writing loop of `make_func_callable`: the proc's results are
zipped against the declared result types and each is converted with
`to_wasm_val`; the first failure short-circuits. -/
def convertResults : List RValue → List ValType → Except RbError (List Val)
  | r :: rs, t :: ts => do
      let w ← r.to_wasm_val t
      let ws ← convertResults rs ts
      pure (w :: ws)
  | _, _ => .ok []

/-- Everything `make_func_callable` does with the outcome of
`proc.call(rparams)`: a raised `Error::Exception` is held in the store's
exception slot and (like every other error) wrapped into a trap carrying
`proc.inspect`; a returned value is ignored when zero results are declared,
otherwise converted through `rb_Array`, checked for result arity, and
written through `to_wasm_val`. -/
def handleProcOutcome (ty : FuncType) (proc : RProc) (c : CallerImpl) :
    Except RbError RValue → CallerImpl × Except Trap (List Val)
  | .error e =>
    let c2 := match e with
      | .exception exn => { c with data := c.data.hold exn }
      | .error _ => c
    (c2, .error (Trap.new (procCallErrorText proc.inspect e.text)))
  | .ok ret =>
    if ty.results.length = 0 then
      (c, .ok [])
    else
      let retList := rbToArray ret
      if retList.length = ty.results.length then
        match convertResults retList ty.results with
        | .error e => (c, .error (Trap.new (procCallErrorText proc.inspect e.text)))
        | .ok vals => (c, .ok vals)
      else
        (c, .error (Trap.new (procCallErrorText proc.inspect
          (resultsArityText retList.length ty.results.length))))

/-- The trampoline `make_func_callable` registers for a host proc: assemble
the Ruby argument array (caller context first when `send_caller`), call the
proc, and translate its outcome; every failure leaves as a `Trap`, never as
a raw Ruby raise. -/
def make_func_callable (ty : FuncType) (proc : RProc) (send_caller : Bool)
    (o : PushOracle) (c : CallerImpl) (params : List Val) :
    CallerImpl × Except Trap (List Val) :=
  match assembleArgs o send_caller c params with
  | .error t => (c, .error t)
  | .ok rargs => handleProcOutcome ty proc c (proc.call rargs)

/-- The argument-arity error text of the Parameter Adapter. -/
def argsArityText (given expected : Nat) : String :=
  "wrong number of arguments (given " ++ toString given ++ ", expected " ++
    toString expected ++ ")"

/-- The positional-conversion error text of the Parameter Adapter. -/
def paramConversionText (i : Nat) (m : String) : String :=
  "error converting argument at index " ++ toString i ++ ": " ++ m

/-- The conversion loop of the Parameter Adapter: each argument is converted
against its expected type; the first failure short-circuits, reported with
its positional index. -/
def adaptEach (i : Nat) : List RValue → List ValType → Except RbError (List Val)
  | [], _ => .ok []
  | _, [] => .ok []
  | a :: as0, t :: ts =>
    match a.to_wasm_val t with
    | .error e => .error (.error (paramConversionText i e.text))
    | .ok w => do
        let ws ← adaptEach (i + 1) as0 ts
        pure (w :: ws)

/-- Modelled from the spec: the Parameter Adapter
(`Params::new(...)?.to_vec()?` from `params.rs`, which is not among the
provided sources).  Arity must match exactly, failing with an error naming
expected vs. actual count; each element is then converted via the Value
Converter, the first failure short-circuiting with its positional index. -/
def Params.to_vec (args : List RValue) (tys : List ValType) :
    Except RbError (List Val) :=
  if args.length = tys.length then
    adaptEach 0 args tys
  else
    .error (.error (argsArityText args.length tys.length))

/-- The error type of `Func::invoke` (`InvokeError` in `func.rs`). -/
inductive InvokeError where
  | boxedException (e : RbException)
  | error (e : RbError)

/-- An engine-registered function (`wasmtime::Func`) as `Func::invoke` sees
it: its signature, and the engine call itself, which can mutate the store
data (nested host closures may set the Held Exception Slot) and either
fills the result array or fails with engine-level error text. -/
structure FuncImpl where
  ty : FuncType
  run : StoreData → List Val → StoreData × Except String (List Val)

/-- The synthesized failure text of `Func::invoke` for an engine error with
no held exception: `"Could not invoke function: {e}"`. -/
def invokeFailText (m : String) : String :=
  "Could not invoke function: " ++ m

/-- The result loop of `Func::invoke` for more than one result: each VM
value is converted with `to_ruby_value` and pushed onto a Ruby array, every
failure propagating via `?`. -/
def resultsToRuby : List Val → Except RbError (List RValue)
  | [] => .ok []
  | v :: vs => do
      let r ← v.to_ruby_value
      let rs ← resultsToRuby vs
      pure (r :: rs)

/-- `Func::invoke`: adapt the arguments (arity and conversion failures
short-circuit before the engine call), call the engine, on failure consult
and clear the Held Exception Slot, on success shape the results — zero
results give `nil`, one result the converted scalar, more an array. -/
def Func.invoke (store : StoreData) (func : FuncImpl) (args : List RValue) :
    StoreData × Except InvokeError RValue :=
  match Params.to_vec args func.ty.params with
  | .error e => (store, .error (.error e))
  | .ok params =>
    match func.run store params with
    | (st2, .error msg) =>
      match st2.exceptionSlot with
      | some exn =>
          ({ st2 with exceptionSlot := none }, .error (.error (.exception exn)))
      | none => (st2, .error (.error (.error (invokeFailText msg))))
    | (st2, .ok results) =>
      match results with
      | [] => (st2, .ok .nil)
      | [r] =>
        match r.to_ruby_value with
        | .ok v => (st2, .ok v)
        | .error e => (st2, .error (.error e))
      | rs =>
        match resultsToRuby rs with
        | .ok vs => (st2, .ok (.array vs))
        | .error e => (st2, .error (.error e))

/-- A `Wasmtime::Func` as constructed by `Func::new`: the signature, the
wrapped proc, and whether the caller context is forwarded. -/
structure Func where
  ty : FuncType
  proc : RProc
  sendCaller : Bool

/-- `Func::new`: the keyword argument `caller` is optional and
`send_caller` is `caller.unwrap_or(false)`; the proc is registered with
`make_func_callable ty proc send_caller`. -/
def Func.new (ty : FuncType) (proc : RProc) (callerKw : Option Bool) : Func :=
  { ty := ty, proc := proc, sendCaller := callerKw.getD false }

/-- `Caller#store_data`: reads the store's user data through the wrapped
engine frame; defined (`some`) only on a `Wasmtime::Caller` value. -/
def Caller.store_data : RValue → Option RValue
  | .caller userData _ => some userData
  | _ => none

/-- `wasmtime::Caller::get_export` restricted to what `Caller#export`
consults: the kind of the named export, if present. -/
def lookupExport (exports : List (String × ExternType)) (name : String) :
    Option ExternType :=
  (exports.find? (fun p => p.1 == name)).map (fun p => p.2)

/-- The observable outcome of `Caller#export`: `ok` models an ordinary
return of `Result<Option<Value>, Error>` (the `some` payload is never
produced by the code, hence `Unit`), `panicUnimplemented` models the
`todo!("Handle externs")` panic reached for every export kind. -/
inductive ExportOutcome where
  | ok (v : Option Unit)
  | panicUnimplemented (k : ExternType)
deriving DecidableEq, Repr

/-- `Caller#export`: a missing export yields `Ok(None)`; a present export
is dispatched on its kind, and every kind — `Func`, `Memory`, `Table` and
`Global` alike — hits `todo!("Handle externs")`. -/
def Caller.export (exports : List (String × ExternType)) (name : String) :
    ExportOutcome :=
  match lookupExport exports name with
  | none => .ok none
  | some k => .panicUnimplemented k

/-- A Ruby value is a scalar when it is neither a sequence nor the
"no value" `nil` (both of which `rb_Array` treats specially). -/
def RValue.isScalar : RValue → Bool
  | .nil => false
  | .array _ => false
  | _ => true

/-- With no raising push, the parameter loop appends every converted
parameter in order. -/
theorem convertParams_noFail (params : List Val) :
    ∀ (k i : Nat) (acc : List RValue),
      convertParams noFail k i acc params = .ok (acc ++ params.map Val.to_ruby) := by
  induction params with
  | nil => intro k i acc; simp [convertParams]
  | cons v rest ih =>
      intro k i acc
      rw [show convertParams noFail k i acc (v :: rest)
            = convertParams noFail (k + 1) (i + 1) (acc ++ [v.to_ruby]) rest from rfl,
          ih]
      simp

/-- The parameter loop never fails in the modelled vocabulary, whatever the
push oracle does: a raising push only drops the element. -/
theorem convertParams_isOk (params : List Val) :
    ∀ (o : PushOracle) (k i : Nat) (acc : List RValue),
      ∃ l, convertParams o k i acc params = .ok l := by
  induction params with
  | nil => intro o k i acc; exact ⟨acc, rfl⟩
  | cons v rest ih =>
      intro o k i acc
      simp only [convertParams, Val.to_ruby_value]
      exact ih o (k + 1) (i + 1) _

/-- With no raising push and `send_caller` set, the assembled argument list
is the caller context followed by the converted parameters in order. -/
theorem assembleArgs_noFail_caller (c : CallerImpl) (params : List Val) :
    assembleArgs noFail true c params =
      .ok (RValue.caller c.data.userData c.exports :: params.map Val.to_ruby) := by
  rw [show assembleArgs noFail true c params
        = convertParams noFail 1 0 [RValue.caller c.data.userData c.exports] params from rfl,
      convertParams_noFail]
  simp

/-- With no raising push and `send_caller` unset, the assembled argument
list is exactly the converted parameters in order. -/
theorem assembleArgs_noFail_plain (c : CallerImpl) (params : List Val) :
    assembleArgs noFail false c params = .ok (params.map Val.to_ruby) := by
  simp [assembleArgs, convertParams_noFail]

/-- Argument assembly never fails, whatever the push oracle does. -/
theorem assembleArgs_isOk (o : PushOracle) (sc : Bool) (c : CallerImpl)
    (params : List Val) : ∃ l, assembleArgs o sc c params = .ok l := by
  unfold assembleArgs
  by_cases h : sc = true
  · simp only [h, if_true]
    exact convertParams_isOk params o 1 0 _
  · simp only [eq_false_of_ne_true h, if_false]
    exact convertParams_isOk params o 0 0 []

/-- The multi-result loop of `Func::invoke` converts every value in order. -/
theorem resultsToRuby_eq (vs : List Val) :
    resultsToRuby vs = .ok (vs.map Val.to_ruby) := by
  induction vs with
  | nil => rfl
  | cons v rest ih =>
      simp only [resultsToRuby, Val.to_ruby_value, ih]
      rfl

/-- `rb_Array` leaves a scalar as a one-element array. -/
theorem rbToArray_of_isScalar (v : RValue) (h : v.isScalar = true) :
    rbToArray v = [v] := by
  cases v <;> first | rfl | simp [RValue.isScalar] at h

/-- C1: when the engine-level call inside `Func::invoke` fails, a held host
exception is taken (clearing the slot) and propagated as that exact
exception object; with the slot empty, `invoke` fails with the synthesized
`Could not invoke function` error carrying the engine trap text. -/
theorem invoke_engine_failure_uses_exception_slot
    (store : StoreData) (func : FuncImpl) (args : List RValue)
    (params : List Val) (hp : Params.to_vec args func.ty.params = .ok params)
    (st2 : StoreData) (msg : String)
    (hrun : func.run store params = (st2, .error msg)) :
    (∀ exn, st2.exceptionSlot = some exn →
      Func.invoke store func args =
        ({ st2 with exceptionSlot := none },
         .error (.error (.exception exn)))) ∧
    (st2.exceptionSlot = none →
      Func.invoke store func args =
        (st2, .error (.error (.error (invokeFailText msg))))) := by
  constructor
  · intro exn hslot
    simp [Func.invoke, hp, hrun, hslot]
  · intro hslot
    simp [Func.invoke, hp, hrun, hslot]

/-- Witness for C1: a concrete engine failure that leaves the exception
`boom` in the slot makes `invoke` fail with exactly that exception, slot
cleared. -/
theorem invoke_engine_failure_uses_exception_slot_witness :
    Func.invoke ⟨.obj 1, none⟩
      ⟨⟨[], []⟩, fun st _ =>
        ({ st with exceptionSlot := some ⟨"RuntimeError", "boom", 42⟩ },
         .error ("wasm trap"))⟩
      [] =
      (⟨.obj 1, none⟩, .error (.error (.exception ⟨"RuntimeError", "boom", 42⟩))) :=
  (invoke_engine_failure_uses_exception_slot ⟨.obj 1, none⟩
      ⟨⟨[], []⟩, fun st _ =>
        ({ st with exceptionSlot := some ⟨"RuntimeError", "boom", 42⟩ },
         .error ("wasm trap"))⟩
      [] [] rfl ⟨.obj 1, some ⟨"RuntimeError", "boom", 42⟩⟩ ("wasm trap") rfl).1
    ⟨"RuntimeError", "boom", 42⟩ rfl

/-- C2: a host closure failure inside the trampoline never crosses the VM
boundary as a raise: a genuine exception is stored into the Held Exception
Slot and an engine trap is signalled; a non-exception failure signals a
trap whose message carries the proc's `inspect` and the error text; every
failure leaves as a trap. -/
theorem trampoline_translates_host_failures
    (ty : FuncType) (proc : RProc) (sc : Bool) (o : PushOracle)
    (c : CallerImpl) (params : List Val) (rargs : List RValue)
    (ha : assembleArgs o sc c params = .ok rargs) :
    (∀ exn, proc.call rargs = .error (.exception exn) →
      make_func_callable ty proc sc o c params =
        ({ c with data := c.data.hold exn },
         .error (Trap.new (procCallErrorText proc.inspect exn.message)))) ∧
    (∀ m, proc.call rargs = .error (.error m) →
      make_func_callable ty proc sc o c params =
        (c, .error (Trap.new (procCallErrorText proc.inspect m)))) ∧
    (∀ e, proc.call rargs = .error e →
      ∃ t, (make_func_callable ty proc sc o c params).2 = .error t) := by
  refine ⟨?_, ?_, ?_⟩
  · intro exn hcall
    simp [make_func_callable, ha, hcall, handleProcOutcome, RbError.text]
  · intro m hcall
    simp [make_func_callable, ha, hcall, handleProcOutcome, RbError.text]
  · intro e hcall
    simp [make_func_callable, ha, hcall, handleProcOutcome]

/-- Witness for C2: a proc raising the exception `boom` gets it held in the
store slot and the call traps. -/
theorem trampoline_translates_host_failures_witness :
    make_func_callable ⟨[.i32], [.i32]⟩
      ⟨fun _ => .error (.exception ⟨"RuntimeError", "boom", 7⟩), "#<Proc:0x1>"⟩
      false noFail ⟨⟨.nil, none⟩, []⟩ [.i32 1] =
      (⟨⟨.nil, some ⟨"RuntimeError", "boom", 7⟩⟩, []⟩,
       .error (Trap.new (procCallErrorText ("#<Proc:0x1>") ("boom")))) :=
  (trampoline_translates_host_failures ⟨[.i32], [.i32]⟩
      ⟨fun _ => .error (.exception ⟨"RuntimeError", "boom", 7⟩), "#<Proc:0x1>"⟩
      false noFail ⟨⟨.nil, none⟩, []⟩ [.i32 1] [.int 1] rfl).1
    ⟨"RuntimeError", "boom", 7⟩ rfl

/-- C3: on a successful engine call, `Func::invoke` shapes the results by
declared count — zero results give `nil`, one result the converted scalar
itself (not a one-element array), more than one an ordered array of the
converted values. -/
theorem invoke_result_shapes
    (store : StoreData) (func : FuncImpl) (args : List RValue)
    (params : List Val) (st2 : StoreData) (results : List Val)
    (hp : Params.to_vec args func.ty.params = .ok params)
    (hrun : func.run store params = (st2, .ok results))
    (hlen : results.length = func.ty.results.length) :
    (func.ty.results.length = 0 →
      Func.invoke store func args = (st2, .ok .nil)) ∧
    (∀ r, results = [r] →
      Func.invoke store func args = (st2, .ok r.to_ruby)) ∧
    (2 ≤ results.length →
      Func.invoke store func args =
        (st2, .ok (.array (results.map Val.to_ruby)))) := by
  refine ⟨?_, ?_, ?_⟩
  · intro h0
    have hnil : results = [] := List.length_eq_zero.mp (hlen.trans h0)
    subst hnil
    simp [Func.invoke, hp, hrun]
  · intro r hr
    subst hr
    simp [Func.invoke, hp, hrun, Val.to_ruby_value]
  · intro h2
    match results, hrun, hlen, h2 with
    | a :: b :: rest, hrun, hlen, h2 =>
      simp [Func.invoke, hp, hrun, resultsToRuby_eq]

/-- Witness for C3: two declared `i32` results come back as the ordered
Ruby array of both converted values. -/
theorem invoke_result_shapes_witness :
    Func.invoke ⟨.nil, none⟩
      ⟨⟨[], [.i32, .i32]⟩, fun st _ => (st, .ok [.i32 5, .i32 6])⟩ [] =
      (⟨.nil, none⟩, .ok (.array [.int 5, .int 6])) :=
  (invoke_result_shapes ⟨.nil, none⟩
      ⟨⟨[], [.i32, .i32]⟩, fun st _ => (st, .ok [.i32 5, .i32 6])⟩ [] []
      ⟨.nil, none⟩ [.i32 5, .i32 6] rfl rfl rfl).2.2 (by decide)

/-- C4: `Func::invoke` adapts the arguments before touching the engine: an
argument count differing from the declared parameter count fails with the
arity error carrying both counts, and any Parameter Adapter failure
short-circuits with the store untouched — the conclusions never consult
`func.run`, so the engine is not invoked. -/
theorem invoke_checks_arity_before_engine
    (store : StoreData) (func : FuncImpl) (args : List RValue) :
    (args.length ≠ func.ty.params.length →
      Func.invoke store func args =
        (store, .error (.error (.error
          (argsArityText args.length func.ty.params.length))))) ∧
    (∀ e, Params.to_vec args func.ty.params = .error e →
      Func.invoke store func args = (store, .error (.error e))) := by
  constructor
  · intro hne
    have hp : Params.to_vec args func.ty.params =
        .error (.error (argsArityText args.length func.ty.params.length)) := by
      simp [Params.to_vec, hne]
    simp [Func.invoke, hp]
  · intro e he
    simp [Func.invoke, he]

/-- Witness for C4: calling a two-parameter function with one argument
fails with the (given 1, expected 2) arity error without reaching the
engine. -/
theorem invoke_checks_arity_before_engine_witness :
    Func.invoke ⟨.nil, none⟩
      ⟨⟨[.i32, .i32], [.i32]⟩, fun st _ => (st, .ok [.i32 0])⟩ [.int 2] =
      (⟨.nil, none⟩, .error (.error (.error (argsArityText 1 2)))) :=
  (invoke_checks_arity_before_engine ⟨.nil, none⟩
      ⟨⟨[.i32, .i32], [.i32]⟩, fun st _ => (st, .ok [.i32 0])⟩ [.int 2]).1
    (by decide)

/-- C5: for a trampoline-wrapped proc, zero declared results ignore the
proc's return value entirely and succeed; with at least one declared
result, a return whose `rb_Array` length differs from the declared count
traps with the error naming given and expected counts. -/
theorem trampoline_result_arity
    (ty : FuncType) (proc : RProc) (sc : Bool) (o : PushOracle)
    (c : CallerImpl) (params : List Val) (rargs : List RValue) (v : RValue)
    (ha : assembleArgs o sc c params = .ok rargs)
    (hv : proc.call rargs = .ok v) :
    (ty.results = [] → make_func_callable ty proc sc o c params = (c, .ok [])) ∧
    (ty.results.length ≠ 0 → (rbToArray v).length ≠ ty.results.length →
      make_func_callable ty proc sc o c params =
        (c, .error (Trap.new (procCallErrorText proc.inspect
          (resultsArityText (rbToArray v).length ty.results.length))))) := by
  constructor
  · intro h0
    simp [make_func_callable, ha, hv, handleProcOutcome, h0]
  · intro hne hlen
    simp [make_func_callable, ha, hv, handleProcOutcome, hne, hlen]

/-- Witness for C5: two declared results and a one-element return trap with
the (given 1, expected 2) result-arity error. -/
theorem trampoline_result_arity_witness :
    make_func_callable ⟨[], [.i32, .i32]⟩
      ⟨fun _ => .ok (.array [.int 1]), "#<Proc:0x2>"⟩
      false noFail ⟨⟨.nil, none⟩, []⟩ [] =
      (⟨⟨.nil, none⟩, []⟩,
       .error (Trap.new (procCallErrorText ("#<Proc:0x2>")
         (resultsArityText 1 2)))) :=
  (trampoline_result_arity ⟨[], [.i32, .i32]⟩
      ⟨fun _ => .ok (.array [.int 1]), "#<Proc:0x2>"⟩
      false noFail ⟨⟨.nil, none⟩, []⟩ [] [] (.array [.int 1]) rfl rfl).2
    (by decide) (by decide)

/-- C6: for exactly one declared result, a proc returning a bare scalar and
a proc returning the one-element array holding it both succeed with the
same observed outcome: the converted value. -/
theorem trampoline_scalar_singleton_equivalence
    (ty : FuncType) (t : ValType) (ht : ty.results = [t])
    (sc : Bool) (o : PushOracle) (c : CallerImpl) (params : List Val)
    (rargs : List RValue) (ha : assembleArgs o sc c params = .ok rargs)
    (v : RValue) (w : Val) (hs : v.isScalar = true)
    (hw : v.to_wasm_val t = .ok w)
    (p1 p2 : RProc)
    (h1 : p1.call rargs = .ok v) (h2 : p2.call rargs = .ok (.array [v])) :
    make_func_callable ty p1 sc o c params = (c, .ok [w]) ∧
    make_func_callable ty p2 sc o c params = (c, .ok [w]) := by
  have hr : rbToArray v = [v] := rbToArray_of_isScalar v hs
  constructor
  · simp [make_func_callable, ha, h1, handleProcOutcome, ht, hr,
      convertResults, hw]
    rfl
  · simp [make_func_callable, ha, h2, handleProcOutcome, ht, rbToArray,
      convertResults, hw]
    rfl

/-- Witness for C6: with one declared `i32` result, returning `5` and
returning `[5]` both yield the single result `5`. -/
theorem trampoline_scalar_singleton_equivalence_witness :
    make_func_callable ⟨[], [.i32]⟩ ⟨fun _ => .ok (.int 5), "#<Proc:0x5>"⟩
      false noFail ⟨⟨.nil, none⟩, []⟩ [] = (⟨⟨.nil, none⟩, []⟩, .ok [.i32 5]) ∧
    make_func_callable ⟨[], [.i32]⟩
      ⟨fun _ => .ok (.array [.int 5]), "#<Proc:0x6>"⟩
      false noFail ⟨⟨.nil, none⟩, []⟩ [] = (⟨⟨.nil, none⟩, []⟩, .ok [.i32 5]) :=
  trampoline_scalar_singleton_equivalence ⟨[], [.i32]⟩ .i32 rfl
    false noFail ⟨⟨.nil, none⟩, []⟩ [] [] rfl (.int 5) (.i32 5) rfl rfl
    ⟨fun _ => .ok (.int 5), "#<Proc:0x5>"⟩
    ⟨fun _ => .ok (.array [.int 5]), "#<Proc:0x6>"⟩ rfl rfl

/-- C7: with `send_caller` configured, the trampoline hands the proc the
caller context exactly once as its first argument, followed by the
converted VM parameters in order, and `Caller#store_data` on that context
reads exactly the store's user data. -/
theorem trampoline_caller_forwarding
    (ty : FuncType) (proc : RProc) (c : CallerImpl) (params : List Val) :
    make_func_callable ty proc true noFail c params =
      handleProcOutcome ty proc c
        (proc.call (RValue.caller c.data.userData c.exports ::
          params.map Val.to_ruby)) ∧
    Caller.store_data (RValue.caller c.data.userData c.exports) =
      some c.data.userData := by
  constructor
  · simp [make_func_callable, assembleArgs_noFail_caller]
  · rfl

/-- C8 counterexample: the claim says the function-export kind is
materializable as a host value, but `Caller#export` on a function-kind
export reaches `todo!("Handle externs")` — it panics, and never returns a
value. -/
theorem export_func_kind_not_materializable :
    Caller.export [("f", ExternType.func)] ("f") =
      .panicUnimplemented .func ∧
    Caller.export [("f", ExternType.func)] ("f") ≠ .ok (some ()) ∧
    Caller.export [("f", ExternType.func)] ("f") ≠ .ok none :=
  ⟨rfl, by decide, by decide⟩

/-- C8 amended: `Caller#export` dispatches on the export's kind, a missing
name yields the empty optional, and every present kind — function included
— fails loudly with the unimplemented panic, never silently returning an
empty result. -/
theorem export_lookup_dispatch
    (exports : List (String × ExternType)) (name : String) :
    (lookupExport exports name = none →
      Caller.export exports name = .ok none) ∧
    (∀ k, lookupExport exports name = some k →
      Caller.export exports name = .panicUnimplemented k ∧
      ∀ v, Caller.export exports name ≠ .ok v) := by
  constructor
  · intro h
    simp [Caller.export, h]
  · intro k h
    refine ⟨by simp [Caller.export, h], ?_⟩
    intro v
    simp [Caller.export, h]

/-- Witness for C8 (amended): a memory-kind export hits the unimplemented
panic. -/
theorem export_lookup_dispatch_witness :
    Caller.export [("m", ExternType.memory)] ("m") =
      .panicUnimplemented .memory :=
  ((export_lookup_dispatch [("m", ExternType.memory)] ("m")).2 .memory rfl).1

/-- C9 counterexample: with `send_caller` set, the very first push — the
caller context — raises; the trampoline discards the push result with
`.ok()`, so the proc runs without the caller context and the call succeeds:
the assembly failure is silently swallowed, not surfaced. -/
theorem trampoline_swallows_push_failure :
    PushOracle.fails ⟨fun k => k == 0⟩ 0 = true ∧
    assembleArgs ⟨fun k => k == 0⟩ true ⟨⟨.nil, none⟩, []⟩ [.i32 3] =
      .ok [.int 3] ∧
    make_func_callable ⟨[.i32], []⟩ ⟨fun _ => .ok .nil, "#<Proc:0x3>"⟩ true
      ⟨fun k => k == 0⟩ ⟨⟨.nil, none⟩, []⟩ [.i32 3] =
      (⟨⟨.nil, none⟩, []⟩, .ok []) :=
  ⟨rfl, rfl, rfl⟩

/-- C9 amended: every failure of the proc call and of result marshalling
surfaces as an observable trap, but a failure while appending to the host
argument list (the caller context or a converted parameter) is silently
discarded — assembly never reports an error, whatever pushes raise. -/
theorem trampoline_error_surfacing
    (ty : FuncType) (proc : RProc) (sc : Bool) (o : PushOracle)
    (c : CallerImpl) (params : List Val) :
    (∃ rargs, assembleArgs o sc c params = .ok rargs) ∧
    (∀ rargs e, assembleArgs o sc c params = .ok rargs →
      proc.call rargs = .error e →
      ∃ t, (make_func_callable ty proc sc o c params).2 = .error t) ∧
    (∀ rargs v, assembleArgs o sc c params = .ok rargs →
      proc.call rargs = .ok v →
      ty.results.length ≠ 0 → (rbToArray v).length ≠ ty.results.length →
      ∃ t, (make_func_callable ty proc sc o c params).2 = .error t) := by
  refine ⟨assembleArgs_isOk o sc c params, ?_, ?_⟩
  · intro rargs e ha hcall
    simp [make_func_callable, ha, hcall, handleProcOutcome]
  · intro rargs v ha hcall hne hlen
    simp [make_func_callable, ha, hcall, handleProcOutcome, hne, hlen]

/-- Witness for C9 (amended): a proc failing with a marshalling-style error
makes the trampoline trap. -/
theorem trampoline_error_surfacing_witness :
    ∃ t, (make_func_callable ⟨[], []⟩
      ⟨fun _ => .error (.error ("marshal failed")), "#<Proc:0x4>"⟩
      false noFail ⟨⟨.nil, none⟩, []⟩ []).2 = .error t :=
  (trampoline_error_surfacing ⟨[], []⟩
      ⟨fun _ => .error (.error ("marshal failed")), "#<Proc:0x4>"⟩
      false noFail ⟨⟨.nil, none⟩, []⟩ []).2.1 [] (.error ("marshal failed"))
    rfl rfl

/-- C10: constructing a `Func` without the `caller` keyword defaults
`send_caller` to `false`, and the trampoline registered with that default
hands the proc exactly the converted VM parameters, with no caller context
prepended. -/
theorem func_new_defaults_to_no_caller
    (ty : FuncType) (proc : RProc) (c : CallerImpl) (params : List Val) :
    (Func.new ty proc none).sendCaller = false ∧
    make_func_callable ty proc (Func.new ty proc none).sendCaller noFail
      c params =
      handleProcOutcome ty proc c (proc.call (params.map Val.to_ruby)) := by
  constructor
  · rfl
  · simp [Func.new, make_func_callable, assembleArgs_noFail_plain]

end WasmtimeRb
